import Mathlib

/-!
Verification development for the voxel-to-brick conversion engine of this
repository (backend/app/services/master_builder.py and
backend/app/services/part_discovery.py).

The Python source is shallowly embedded below: pure functions become Lean
functions, the mutable `MasterBuilder` state becomes an explicit
`BuilderState` threaded through the layer/color/part/rotation loops, Python
`int` becomes `Int`, Python sets and dicts become lists used with set
semantics (Python dicts iterate in insertion order, which the list order
mirrors; every place the source iterates over a `set`, it either sorts it
first or computes an order-independent result, so list order is faithful).
The external Rebrickable/Backboard services (the Catalog Port) are
parameters: `Catalog` carries the three functions the engine calls.
-/

/-- A 2D grid cell, Python tuple `(x, y)`. -/
abbrev Coord2 := Int × Int

/-- A 3D grid cell, Python tuple `(x, y, z)`. -/
abbrev Coord3 := Int × Int × Int

/-- Embeds the dataclass `PlacedBrick` of master_builder.py (lines 31-38). -/
structure PlacedBrick where
  part_id : String
  position : Coord3
  rotation : Nat
  color_id : Int
  is_verified : Bool
deriving DecidableEq, Repr

/-- A committed placement together with the 3D cells the source computed for
it via `_get_brick_occupied_positions` at commit time (master_builder.py
lines 324-328).  The source stores only the union of these cells in
`occupied_positions`; keeping the per-brick cell list is a bookkeeping
refinement of the same commit, used to state disjointness claims. -/
structure Placement where
  brick : PlacedBrick
  cells : List Coord3
deriving DecidableEq, Repr

/-- The mutable fields of `MasterBuilder` that `process_voxels` populates
(master_builder.py lines 63-77): `placed_bricks` (as `placed`, with the
per-brick cells kept alongside), `occupied_positions` (as a list with set
semantics) and `layer_bricks` (insertion-ordered association list, mirroring
`defaultdict(list)`). -/
structure BuilderState where
  placed : List Placement
  occupied : List Coord3
  layer_bricks : List (Int × List PlacedBrick)
deriving DecidableEq, Repr

/-- The fresh state `process_voxels` resets to (master_builder.py 118-123). -/
def emptyState : BuilderState := { placed := [], occupied := [], layer_bricks := [] }

/-- Embeds `_get_rectangular_positions` (master_builder.py 341-349): the 2D
cells a `width x height` brick anchored at `(start_x, start_y)` occupies. -/
def get_rectangular_positions (start_x start_y : Int) (width height : Nat) : List Coord2 :=
  (List.range width).flatMap (fun dx => (List.range height).map (fun dy => (start_x + dx, start_y + dy)))

/-- Embeds `_get_brick_occupied_positions` (master_builder.py 351-360): the
3D cells a brick occupies at layer `z`. -/
def get_brick_occupied_positions (x y : Int) (width height : Nat) (z : Int) : List Coord3 :=
  (List.range width).flatMap (fun dx => (List.range height).map (fun dy => (x + dx, y + dy, z)))

/-- Embeds `_get_rotated_dimensions` (master_builder.py 362-368). -/
def get_rotated_dimensions (width height : Nat) (rotation : Nat) : Nat × Nat :=
  if rotation = 90 ∨ rotation = 270 then (height, width) else (width, height)

/-- Embeds `_can_place_brick_at` (master_builder.py 334-339): true iff no
cell of the footprint is already occupied. -/
def can_place_brick_at (st : BuilderState) (x y z : Int) (width height : Nat) : Bool :=
  (get_brick_occupied_positions x y width height z).all (fun p => decide (p ∉ st.occupied))

/-- Lexicographic tuple comparison, as Python `sorted` orders `(x, y)` pairs. -/
def lexLe (a b : Coord2) : Bool :=
  decide (a.1 < b.1) || (decide (a.1 = b.1) && decide (a.2 ≤ b.2))

/-- Insert into a lexicographically sorted list (helper for `sortVoxels`). -/
def insertSorted (c : Coord2) : List Coord2 → List Coord2
  | [] => [c]
  | d :: ds => if lexLe c d then c :: d :: ds else d :: insertSorted c ds

/-- Embeds `sorted(remaining)` (master_builder.py 289): Python sorts the
voxel set lexicographically; on duplicate-free input, insertion sort returns
the same unique sorted arrangement. -/
def sortVoxels (l : List Coord2) : List Coord2 := l.foldr insertSorted []

/-- Minimum of an `Int` seed and a list, Python `min(...)` over a nonempty
collection when the seed is an element. -/
def listMin (x : Int) (xs : List Int) : Int := xs.foldl min x

/-- Maximum of an `Int` seed and a list, Python `max(...)`. -/
def listMax (x : Int) (xs : List Int) : Int := xs.foldl max x

/-- The shape-characteristics dictionary returned by
`PartDiscoveryService.analyze_voxel_shape` (part_discovery.py 51-116).
In the source's empty-input branch the `width`, `height` and `area` keys are
absent from the dictionary; they are set to `0` here (nothing downstream
reads them for an empty set, which never occurs in the pipeline). -/
structure Shape where
  is_round : Bool
  is_curved : Bool
  is_rectangular : Bool
  aspect_ratio : ℚ
  bounding_box : Int × Int × Int × Int
  width : Int
  height : Int
  area : Nat
deriving DecidableEq, Repr

/-- Whether a cell lies within 0.5 studs of the ideal inscribed circle
(part_discovery.py 96-99).  The source computes
`abs(sqrt((x-cx)^2+(y-cy)^2) - r) < 0.5` in real arithmetic with
`cx = (min_x+max_x)/2`, `cy = (min_y+max_y)/2`, `r = min(w,h)/2`.
Here `cx2 = min_x+max_x = 2*cx`, `cy2 = min_y+max_y = 2*cy` and
`r2 = min(w,h) = 2*r`; with `q4 = (2x-cx2)^2 + (2y-cy2)^2 = 4*d^2` and
`r2 ≥ 1` the condition `|d - r| < 1/2` is equivalent to
`(r2-1)^2 < q4 ∧ q4 < (r2+1)^2` (square both sides of
`r - 1/2 < d < r + 1/2`, all sides nonnegative); `roundNear_iff_sqrt` below
proves this equivalence against the real-valued formula. -/
def roundNear (cx2 cy2 r2 : Int) (c : Coord2) : Bool :=
  let q4 := (2 * c.1 - cx2) ^ 2 + (2 * c.2 - cy2) ^ 2
  decide ((r2 - 1) ^ 2 < q4) && decide (q4 < (r2 + 1) ^ 2)

/-- Embeds `analyze_voxel_shape` (part_discovery.py 51-116).  The source
computes `aspect_ratio` and the two threshold tests in Python float
arithmetic; they are embedded exactly over ℚ/ℤ:
`round_score / area > 0.7` becomes `10 * round_score > 7 * area` and
`aspect_ratio > 1.5` becomes `2 * max(w,h) > 3 * min(w,h)` (both sides are
integers, so the inequalities agree with the exact rational ones). -/
def analyze_voxel_shape (voxels : List Coord2) : Shape :=
  match voxels with
  | [] =>
    { is_round := false, is_curved := false, is_rectangular := true,
      aspect_ratio := 1, bounding_box := (0, 0, 0, 0), width := 0, height := 0, area := 0 }
  | v :: _ =>
    let xs := voxels.map Prod.fst
    let ys := voxels.map Prod.snd
    let min_x := listMin v.1 xs
    let max_x := listMax v.1 xs
    let min_y := listMin v.2 ys
    let max_y := listMax v.2 ys
    let width := max_x - min_x + 1
    let height := max_y - min_y + 1
    let area := voxels.length
    let bounding_area := width * height
    let ar : ℚ := if 0 < min width height then (max width height : ℚ) / (min width height : ℚ) else 1
    let is_rectangular := decide ((area : Int) = bounding_area)
    let round_score := voxels.countP (roundNear (min_x + max_x) (min_y + max_y) (min width height))
    let is_round := if 0 < area then decide (10 * round_score > 7 * area) else false
    let is_curved := !is_round && !is_rectangular && decide (2 * max width height > 3 * min width height)
    { is_round := is_round, is_curved := is_curved, is_rectangular := is_rectangular,
      aspect_ratio := ar, bounding_box := (min_x, min_y, max_x, max_y),
      width := width, height := height, area := area }

/-- One candidate part dictionary as consumed by `_process_layer`
(master_builder.py 203-210 reads `part_num`, `width`, `height`; the
remaining keys of the source dictionaries are carried for fidelity where the
source sets them and never read). -/
structure PartInfo where
  part_num : String
  width : Nat
  height : Nat
  area : Nat
  color_id : Int
  is_verified : Bool
deriving DecidableEq, Repr

/-- Embeds `_get_fallback_parts` (master_builder.py 420-427). -/
def fallback_parts (color_id : Int) : List PartInfo :=
  [ { part_num := "3001", width := 4, height := 2, area := 8, color_id := color_id, is_verified := false },
    { part_num := "3003", width := 2, height := 2, area := 4, color_id := color_id, is_verified := false },
    { part_num := "3004", width := 2, height := 1, area := 2, color_id := color_id, is_verified := false },
    { part_num := "3005", width := 1, height := 1, area := 1, color_id := color_id, is_verified := false } ]

/-- The external Catalog Port as the engine calls it:
`get_closest_lego_color`, `discover_parts_for_shape` (whose Backboard /
Rebrickable internals are out of scope and deterministic per run thanks to
the caching in part_discovery.py), and `verify_part_availability`, which
may raise — modelled as `Except.error`. -/
structure Catalog where
  getClosestColor : String → Int
  discoverParts : Shape → Int → List PartInfo
  verifyAvailability : String → Int → Except String Bool

/-- The engine's effective view of the Catalog Port once the availability
try/except and test mode are applied (see `availOf`). -/
structure DetCatalog where
  getClosestColor : String → Int
  discoverParts : Shape → Int → List PartInfo
  avail : String → Int → Bool

/-- Embeds the availability check of `_greedy_place_bricks_with_verification`
(master_builder.py 268-279): in test mode the part is assumed available;
otherwise `verify_part_availability` is called and any raised exception is
swallowed with `is_available = True` (fail-open). -/
def availOf (test_mode : Bool) (cat : Catalog) (part_id : String) (color_id : Int) : Bool :=
  if test_mode then true
  else
    match cat.verifyAvailability part_id color_id with
    | Except.ok b => b
    | Except.error _ => true

/-- The deterministic functions the run actually consumes. -/
def detOf (test_mode : Bool) (cat : Catalog) : DetCatalog :=
  { getClosestColor := cat.getClosestColor,
    discoverParts := cat.discoverParts,
    avail := availOf test_mode cat }

/-- Append a brick to its layer's list, mirroring
`self.layer_bricks[layer_z].append(brick)` on a `defaultdict(list)`
(master_builder.py 322). -/
def addLayerBrick : List (Int × List PlacedBrick) → Int → PlacedBrick → List (Int × List PlacedBrick)
  | [], z, b => [(z, [b])]
  | zb :: rest, z, b =>
    if zb.1 = z then (zb.1, zb.2 ++ [b]) :: rest else zb :: addLayerBrick rest z b

/-- The parity filter applied to an anchor (master_builder.py 296-305):
even layers keep only even-aligned anchors, odd layers only odd-aligned
ones; everything else is skipped outright. -/
def anchorParity (layer_z : Int) (a : Coord2) : Bool :=
  if layer_z % 2 = 0 then decide (a.1 % 2 = 0) && decide (a.2 % 2 = 0)
  else decide (a.1 % 2 = 1) && decide (a.2 % 2 = 1)

/-- The placement validity test of the scan (master_builder.py 307-311):
the footprint is collision-free in the occupancy set and contained in the
remaining same-color voxel set. -/
def placementOK (st : BuilderState) (remaining : List Coord2) (x y layer_z : Int)
    (width height : Nat) : Bool :=
  can_place_brick_at st x y layer_z width height
    && (get_rectangular_positions x y width height).all (fun c => decide (c ∈ remaining))

/-- The scan over `sorted_voxels` in
`_greedy_place_bricks_with_verification` (master_builder.py 291-331):
for each anchor in sorted order, skip it unless it satisfies the layer's
parity rule, then place the brick iff `placementOK` holds, committing the
brick to `placed_bricks`, `layer_bricks` and `occupied_positions`. -/
def greedyLoop (part_id : String) (color_id : Int) (layer_z : Int) (rotation : Nat)
    (width height : Nat) :
    List Coord2 → List Coord2 → BuilderState → List Placement × List Coord2 × BuilderState
  | [], remaining, st => ([], remaining, st)
  | a :: anchors, remaining, st =>
    if anchorParity layer_z a then
      if placementOK st remaining a.1 a.2 layer_z width height then
        let brick : PlacedBrick :=
          { part_id := part_id, position := (a.1, a.2, layer_z), rotation := rotation,
            color_id := color_id, is_verified := true }
        let cells := get_brick_occupied_positions a.1 a.2 width height layer_z
        let pl : Placement := { brick := brick, cells := cells }
        let st1 : BuilderState :=
          { placed := st.placed ++ [pl],
            occupied := st.occupied ++ cells,
            layer_bricks := addLayerBrick st.layer_bricks layer_z brick }
        let remaining1 := remaining.filter
          (fun c => decide (c ∉ get_rectangular_positions a.1 a.2 width height))
        let r := greedyLoop part_id color_id layer_z rotation width height anchors remaining1 st1
        (pl :: r.1, r.2)
      else greedyLoop part_id color_id layer_z rotation width height anchors remaining st
    else greedyLoop part_id color_id layer_z rotation width height anchors remaining st

/-- Embeds `_greedy_place_bricks_with_verification` (master_builder.py
243-332): availability is resolved once (through `DetCatalog.avail`, i.e.
`availOf`); an unavailable part size is abandoned entirely (`return []`,
lines 281-286); otherwise the sorted scan runs. -/
def greedy_place (dcat : DetCatalog) (voxels : List Coord2) (width height : Nat)
    (part_id : String) (color_id : Int) (layer_z : Int) (rotation : Nat)
    (st : BuilderState) : List Placement × BuilderState :=
  if dcat.avail part_id color_id then
    let r := greedyLoop part_id color_id layer_z rotation width height (sortVoxels voxels) voxels st
    (r.1, r.2.2)
  else ([], st)

/-- Embeds `MasterBuilder.ROTATIONS` (master_builder.py 61). -/
def ROTATIONS : List Nat := [0, 90, 180, 270]

/-- The rotation loop of `_process_layer` (master_builder.py 213-241):
break when no voxels remain, rotate the dimensions, place greedily, then
remove each placed brick's footprint from the remaining set. -/
def rotLoop (dcat : DetCatalog) (color_id : Int) (layer_z : Int) (part : PartInfo) :
    List Nat → List Coord2 → BuilderState → List Coord2 × BuilderState
  | [], remaining, st => (remaining, st)
  | rot :: rest, remaining, st =>
    if remaining.isEmpty then (remaining, st)
    else
      let d := get_rotated_dimensions part.width part.height rot
      let r := greedy_place dcat remaining d.1 d.2 part.part_num color_id layer_z rot st
      let remaining1 := r.1.foldl
        (fun rem p =>
          let occ := get_brick_occupied_positions p.brick.position.1 p.brick.position.2.1 d.1 d.2 layer_z
          let occ2 := occ.map (fun c => (c.1, c.2.1))
          rem.filter (fun c => decide (c ∉ occ2))) remaining
      rotLoop dcat color_id layer_z part rest remaining1 r.2

/-- The candidate-part loop of `_process_layer` (master_builder.py
203-241): parts in the discovered order, breaking once nothing remains. -/
def partsLoop (dcat : DetCatalog) (color_id : Int) (layer_z : Int) :
    List PartInfo → List Coord2 → BuilderState → List Coord2 × BuilderState
  | [], remaining, st => (remaining, st)
  | part :: rest, remaining, st =>
    if remaining.isEmpty then (remaining, st)
    else
      let r := rotLoop dcat color_id layer_z part ROTATIONS remaining st
      partsLoop dcat color_id layer_z rest r.1 r.2

/-- Group a layer's voxels by hex color preserving first-occurrence order,
mirroring the `defaultdict(set)` built at master_builder.py 172-175 (each
group's list holds the distinct keys of the layer dictionary, so it has set
semantics). -/
def addToGroup : List (String × List Coord2) → String → Coord2 → List (String × List Coord2)
  | [], col, c => [(col, [c])]
  | g :: rest, col, c =>
    if g.1 = col then (g.1, g.2 ++ [c]) :: rest else g :: addToGroup rest col c

/-- The per-layer color grouping (master_builder.py 172-175). -/
def color_groups (lv : List (Coord2 × String)) : List (String × List Coord2) :=
  lv.foldl (fun gs vc => addToGroup gs vc.2 vc.1) []

/-- The body of the per-color loop of `_process_layer` (master_builder.py
178-241): resolve the color, analyze the shape, discover candidate parts
(falling back to `_get_fallback_parts` when discovery returns none, lines
195-197), then run the greedy part/rotation loops. -/
def process_color_group (dcat : DetCatalog) (layer_z : Int) (hex_color : String)
    (voxel_set : List Coord2) (st : BuilderState) : BuilderState :=
  let color_id := dcat.getClosestColor hex_color
  let shape := analyze_voxel_shape voxel_set
  let discovered := dcat.discoverParts shape color_id
  let discovered1 := if discovered.isEmpty then fallback_parts color_id else discovered
  (partsLoop dcat color_id layer_z discovered1 voxel_set st).2

/-- The per-color loop of `_process_layer` over the insertion-ordered color
groups. -/
def colorLoop (dcat : DetCatalog) (layer_z : Int) :
    List (String × List Coord2) → BuilderState → BuilderState
  | [], st => st
  | g :: rest, st => colorLoop dcat layer_z rest (process_color_group dcat layer_z g.1 g.2 st)

/-- Embeds `_process_layer` (master_builder.py 161-241). -/
def process_layer (dcat : DetCatalog) (layer_z : Int) (layer_voxels : List (Coord2 × String))
    (st : BuilderState) : BuilderState :=
  colorLoop dcat layer_z (color_groups layer_voxels) st

/-- One input voxel after Python coercion, keys `x`, `y`, `z`,
`hex_color` (master_builder.py 126-131). -/
structure InputVoxel where
  x : Int
  y : Int
  z : Int
  hex_color : String
deriving DecidableEq, Repr

/-- Dictionary assignment `self.voxel_grid[(x,y,z)] = hex_color`: replaces
the value in place when the key exists (Python dicts keep the original
insertion position on overwrite), otherwise appends. -/
def insertGrid : List (Coord3 × String) → Coord3 → String → List (Coord3 × String)
  | [], k, col => [(k, col)]
  | kc :: rest, k, col =>
    if kc.1 = k then (kc.1, col) :: rest else kc :: insertGrid rest k col

/-- The voxel-grid dictionary built by `process_voxels` (master_builder.py
126-131). -/
def build_grid (input : List InputVoxel) : List (Coord3 × String) :=
  input.foldl (fun g v => insertGrid g (v.x, v.y, v.z) v.hex_color) []

/-- The layer dictionary comprehension of `process_voxels` (master_builder.py
142-146): the grid entries whose z equals the layer, projected to 2D. -/
def layer_voxels_of (grid : List (Coord3 × String)) (z : Int) : List (Coord2 × String) :=
  grid.filterMap (fun kc => if kc.1.2.2 = z then some ((kc.1.1, kc.1.2.1), kc.2) else none)

/-- Python `range(lo, hi + 1)` over `Int`. -/
def intRange (lo hi : Int) : List Int :=
  (List.range (hi + 1 - lo).toNat).map (fun i => lo + (i : Int))

/-- The ascending-z layer loop of `process_voxels` (master_builder.py
141-149), skipping empty layers. -/
def layerLoop (dcat : DetCatalog) (grid : List (Coord3 × String)) :
    List Int → BuilderState → BuilderState
  | [], st => st
  | z :: zs, st =>
    let lv := layer_voxels_of grid z
    let st1 := if lv.isEmpty then st else process_layer dcat z lv st
    layerLoop dcat grid zs st1

/-- The state produced by `process_voxels` before manifest generation
(master_builder.py 106-152): load the grid, return the empty state when no
voxels exist, otherwise process the layers from `min_z` to `max_z`. -/
def run_builder (dcat : DetCatalog) (input : List InputVoxel) : BuilderState :=
  match build_grid input with
  | [] => emptyState
  | kc :: rest =>
    let grid := kc :: rest
    let zs := grid.map (fun p => p.1.2.2)
    layerLoop dcat grid (intRange (listMin kc.1.2.2 zs) (listMax kc.1.2.2 zs)) emptyState

/-- The MasterManifest JSON of `_generate_manifest` (master_builder.py
371-418); the constant `manifest_version` key is omitted. -/
structure Manifest where
  total_bricks : Nat
  bricks : List PlacedBrick
  layers : List (Int × Nat)
  inventory : List (String × Int × Nat)
deriving DecidableEq, Repr

/-- The inventory `defaultdict(int)` increment (master_builder.py 403-406).
The source keys the dictionary by the string `f"{part_id}_{color_id}"` and
re-splits it at the end; keying by the pair is the same mapping whenever
part ids contain no underscore, which holds for every part id the catalog
and fallback list produce. -/
def addInventory : List (String × Int × Nat) → String → Int → List (String × Int × Nat)
  | [], p, c => [(p, c, 1)]
  | e :: rest, p, c =>
    if e.1 = p ∧ e.2.1 = c then (e.1, e.2.1, e.2.2 + 1) :: rest else e :: addInventory rest p c

/-- Embeds `_generate_manifest` (master_builder.py 371-418). -/
def generate_manifest (st : BuilderState) : Manifest :=
  let bricks := st.placed.map (fun p => p.brick)
  { total_bricks := bricks.length,
    bricks := bricks,
    layers := st.layer_bricks.map (fun zb => (zb.1, zb.2.length)),
    inventory := bricks.foldl (fun inv b => addInventory inv b.part_id b.color_id) [] }

/-- The pipeline over the engine's effective deterministic catalog. -/
def process_voxels_det (dcat : DetCatalog) (input : List InputVoxel) : Manifest :=
  generate_manifest (run_builder dcat input)

/-- Embeds `MasterBuilder.process_voxels` (master_builder.py 106-152) for
already-coerced voxel dictionaries, over a Catalog Port and the
`TEST_MODE` flag. -/
def process_voxels (test_mode : Bool) (cat : Catalog) (input : List InputVoxel) : Manifest :=
  process_voxels_det (detOf test_mode cat) input

/-- Embeds `process_voxels` as invoked on a `MasterBuilder` instance carrying state
from an earlier run: lines 118-123 reset `voxel_grid`, `placed_bricks`,
`occupied_positions`, `layer_bricks` and `color_cache` before any other
work, so the prior state is discarded. -/
def process_voxels_stateful (prior : BuilderState) (test_mode : Bool) (cat : Catalog)
    (input : List InputVoxel) : Manifest :=
  process_voxels test_mode cat input

/-- A raw JSON value as `process_voxels` receives it before coercion: a
Python int or a string.  (Floats, which `int()` silently truncates, add
nothing to the claims settled here and are omitted.) -/
inductive PyVal where
  | vint (n : Int)
  | vstr (s : String)
deriving DecidableEq, Repr

/-- Parse an optionally signed decimal digit string, the successful cases of
Python `int(str)` (whitespace, `+` signs and digit-group underscores, which
Python also accepts, are immaterial to every claim below). -/
def parseDigitsAux : List Char → Nat → Option Nat
  | [], acc => some acc
  | ch :: cs, acc =>
    if ch.isDigit then parseDigitsAux cs (acc * 10 + (ch.toNat - 48)) else none

/-- Python `int()` applied to a raw value: ints pass through, numeric
strings parse, anything else raises `ValueError` (modelled as
`Except.error`). -/
def pyToInt : PyVal → Except String Int
  | PyVal.vint n => Except.ok n
  | PyVal.vstr s =>
    match s.toList with
    | [] => Except.error "ValueError: invalid literal for int"
    | '-' :: cs =>
      if cs.isEmpty then Except.error "ValueError: invalid literal for int"
      else
        match parseDigitsAux cs 0 with
        | some n => Except.ok (-(n : Int))
        | none => Except.error "ValueError: invalid literal for int"
    | cs =>
      match parseDigitsAux cs 0 with
      | some n => Except.ok (n : Int)
      | none => Except.error "ValueError: invalid literal for int"

/-- One raw input dictionary: `voxel.get("x", 0)` etc. default missing keys
upstream, so the coordinate values are taken as present; `hex_color` keeps
its `.get` default `"#FFFFFF"` when absent (master_builder.py 126-130). -/
structure RawVoxel where
  x : PyVal
  y : PyVal
  z : PyVal
  hex_color : Option String
deriving DecidableEq, Repr

/-- The coercion the loading loop of `process_voxels` performs on one raw
voxel (master_builder.py 127-130): `int(...)` on each coordinate — an
uncaught `ValueError` aborts the whole call — and `.get("hex_color",
"#FFFFFF")`, which accepts any string including the empty one. -/
def loadVoxel (v : RawVoxel) : Except String InputVoxel := do
  let x ← pyToInt v.x
  let y ← pyToInt v.y
  let z ← pyToInt v.z
  Except.ok { x := x, y := y, z := z, hex_color := v.hex_color.getD "#FFFFFF" }

/-- The loading loop over the raw input list (master_builder.py 126-131):
coercion failure on any voxel propagates and nothing is returned. -/
def loadVoxels : List RawVoxel → Except String (List InputVoxel)
  | [] => Except.ok []
  | v :: vs =>
    match loadVoxel v with
    | Except.error e => Except.error e
    | Except.ok iv =>
      match loadVoxels vs with
      | Except.error e => Except.error e
      | Except.ok rest => Except.ok (iv :: rest)

/-- Embeds `process_voxels` from raw JSON input: the loading loop followed by the
layer processing; an uncaught coercion exception aborts the run with no
manifest. -/
def process_voxels_raw (test_mode : Bool) (cat : Catalog) (input : List RawVoxel) :
    Except String Manifest :=
  (loadVoxels input).map (process_voxels test_mode cat)

/-! ### The Interlock Auditor, modelled from the spec

`BackboardService._apply_engineering_rules` (backboard_service.py 272-293)
calls `self.master_builder.check_laminar_interlocking(layer)` for every
layer, but `MasterBuilder` as present under src/ does not define that
method (nor `connectivity_audit`); only the caller survives.  The
definitions in this section are therefore modelled from the spec, §4.5
Interlock Auditor, and are kept separate from the source-derived engine
above. -/

/-- First-occurrence deduplication, used to enumerate a layer's occupied
cells without repetition. -/
def firstOcc (l : List Coord2) : List Coord2 :=
  l.foldl (fun acc c => if c ∈ acc then acc else acc ++ [c]) []

/-- The bricks recorded for a layer (`layer_bricks[z]`). -/
def layer_bricks_at (st : BuilderState) (z : Int) : List PlacedBrick :=
  match st.layer_bricks.find? (fun zb => decide (zb.1 = z)) with
  | some zb => zb.2
  | none => []

/-- Modelled from the spec: the dominant color of a layer — the most
frequent color id among the layer's blocks, ties broken by the first color
id encountered in block insertion order (§4.5). -/
def dominant_color (bricks : List PlacedBrick) : Int :=
  let colors := bricks.foldl (fun acc b => if b.color_id ∈ acc then acc else acc ++ [b.color_id]) []
  let cnt := fun c => bricks.countP (fun b => decide (b.color_id = c))
  match colors with
  | [] => 0
  | c :: cs => cs.foldl (fun best c2 => if cnt c2 > cnt best then c2 else best) c

/-- Index search for the placement owning a cell. -/
def ownerIdxAux (c : Coord3) : List Placement → Nat → Option Nat
  | [], _ => none
  | p :: ps, i => if c ∈ p.cells then some i else ownerIdxAux c ps (i + 1)

/-- The placement owning a cell in the Occupancy Store, by index into the
placement list. -/
def owner_at (st : BuilderState) (c : Coord3) : Option Nat :=
  ownerIdxAux c st.placed 0

/-- The distinct 2D cells occupied by layer `z`. -/
def layer_cells (st : BuilderState) (z : Int) : List Coord2 :=
  firstOcc (st.placed.flatMap
    (fun p => p.cells.filterMap (fun c => if c.2.2 = z then some (c.1, c.2.1) else none)))

/-- Modelled from the spec: a seam cell of layer `z` — an occupied cell
where two distinct blocks, or a block and empty space, meet (§4.5), read as
a cell some 4-neighbor of which has a different owner (possibly none). -/
def is_seam_cell (st : BuilderState) (z : Int) (c : Coord2) : Bool :=
  match owner_at st (c.1, c.2, z) with
  | none => false
  | some i =>
    [(c.1 + 1, c.2), (c.1 - 1, c.2), (c.1, c.2 + 1), (c.1, c.2 - 1)].any
      (fun n => decide (owner_at st (n.1, n.2, z) ≠ some i))

/-- The seam cells of layer `z`. -/
def seam_cells (st : BuilderState) (z : Int) : List Coord2 :=
  (layer_cells st z).filter (is_seam_cell st z)

/-- Modelled from the spec: a synthetic unit filler block (§3 gives the
Block a synthetic/filler flag; the source dataclass `PlacedBrick` has no
such field, so fillers get their own record). -/
structure FillerBlock where
  position : Coord3
  color_id : Int
  synthetic : Bool
deriving DecidableEq, Repr

/-- The commit loop of the Interlock Auditor: for each seam cell whose cell
directly above is unoccupied, place a synthetic unit filler there through
the `tryPlace` contract (occupancy checked, then marked). -/
def interlockGo (dc : Int) (z : Int) :
    List Coord2 → List FillerBlock → BuilderState → List FillerBlock × BuilderState
  | [], acc, st => (acc, st)
  | c :: rest, acc, st =>
    let cell : Coord3 := (c.1, c.2, z + 1)
    if cell ∈ st.occupied then interlockGo dc z rest acc st
    else
      interlockGo dc z rest (acc ++ [{ position := cell, color_id := dc, synthetic := true }])
        { st with occupied := st.occupied ++ [cell] }

/-- Modelled from the spec: `check_laminar_interlocking` for layer `z`
(§4.5) — synthesize a unit filler, colored with layer `z`'s dominant color
and flagged synthetic, above every seam cell whose cell at `z+1` is free in
the Occupancy Store. -/
def check_laminar_interlocking (st : BuilderState) (z : Int) :
    List FillerBlock × BuilderState :=
  let dc := dominant_color (layer_bricks_at st z)
  interlockGo dc z (seam_cells st z) [] st

/-! ### Verification predicates and concrete instances -/

/-- The laminar-interlocking parity rule for an anchor position: even
z-layers require even-aligned anchors, odd z-layers odd-aligned anchors
(master_builder.py 296-305).  `Int.emod` agrees with Python `%` on
negatives (both return 0 or 1 here). -/
def parityOK (pos : Coord3) : Prop :=
  if pos.2.2 % 2 = 0 then pos.1 % 2 = 0 ∧ pos.2.1 % 2 = 0
  else pos.1 % 2 = 1 ∧ pos.2.1 % 2 = 1

instance (pos : Coord3) : Decidable (parityOK pos) :=
  decidable_of_iff
    ((pos.2.2 % 2 = 0 → pos.1 % 2 = 0 ∧ pos.2.1 % 2 = 0) ∧
      (¬pos.2.2 % 2 = 0 → pos.1 % 2 = 1 ∧ pos.2.1 % 2 = 1))
    (by unfold parityOK; split <;> simp_all)

/-- Two placements claim no common 3D cell. -/
def DisjointCells (p q : Placement) : Prop := ∀ c, c ∈ p.cells → c ∉ q.cells

/-- The 3D cells present in the input voxel grid. -/
def gridCells (input : List InputVoxel) : List Coord3 :=
  (build_grid input).map Prod.fst

/-- The run invariant maintained by every commit of the greedy packer:
footprints are recorded in the occupancy set, pairwise disjoint, drawn from
the input grid, parity-aligned, flagged verified, and only placed for
part/color pairs whose effective availability check returned true. -/
structure RunInv (dcat : DetCatalog) (G : List Coord3) (st : BuilderState) : Prop where
  subOcc : ∀ p ∈ st.placed, ∀ c ∈ p.cells, c ∈ st.occupied
  disj : st.placed.Pairwise DisjointCells
  verified : ∀ p ∈ st.placed, p.brick.is_verified = true
  parity : ∀ p ∈ st.placed, parityOK p.brick.position
  inGrid : ∀ p ∈ st.placed, ∀ c ∈ p.cells, c ∈ G
  availTrue : ∀ p ∈ st.placed, dcat.avail p.brick.part_id p.brick.color_id = true

/-- Spec-side bounding-box width of a 2D cell set (§4.2). -/
def bbWidth (l : List Coord2) : Int :=
  match l with
  | [] => 0
  | v :: _ => listMax v.1 (l.map Prod.fst) - listMin v.1 (l.map Prod.fst) + 1

/-- Spec-side bounding-box height of a 2D cell set (§4.2). -/
def bbHeight (l : List Coord2) : Int :=
  match l with
  | [] => 0
  | v :: _ => listMax v.2 (l.map Prod.snd) - listMin v.2 (l.map Prod.snd) + 1

/-- Spec-side rectangularity: the cell count fills the bounding box (fill
ratio exactly 1). -/
def specRectangular (l : List Coord2) : Prop :=
  (l.length : Int) = bbWidth l * bbHeight l

/-- Spec-side count of cells within 0.5 units of the inscribed-circle
radius around the bounding-box center. -/
def bandCount (l : List Coord2) : Nat :=
  match l with
  | [] => 0
  | v :: _ =>
    let xs := l.map Prod.fst
    let ys := l.map Prod.snd
    l.countP (roundNear (listMin v.1 xs + listMax v.1 xs) (listMin v.2 ys + listMax v.2 ys)
      (min (bbWidth l) (bbHeight l)))

/-- Spec-side roundness, amended to the strict threshold the code uses:
strictly more than 70% of the cells lie in the 0.5-unit band. -/
def specRound (l : List Coord2) : Prop :=
  10 * bandCount l > 7 * l.length

/-- Spec-side aspect-ratio test: `max(w,h)/min(w,h) > 1.5`. -/
def specAspect (l : List Coord2) : Prop :=
  2 * max (bbWidth l) (bbHeight l) > 3 * min (bbWidth l) (bbHeight l)

/-- Spec-side curvedness: neither round nor rectangular, and elongated. -/
def specCurved (l : List Coord2) : Prop :=
  ¬specRound l ∧ ¬specRectangular l ∧ specAspect l

/-- The catalog with one part/color pair's availability answer replaced by
a successful `True`, for stating the fail-open contract. -/
def overrideAvailable (cat : Catalog) (P : String) (C : Int) : Catalog :=
  { cat with verifyAvailability := fun p c =>
      if p = P ∧ c = C then Except.ok true else cat.verifyAvailability p c }

/-- Whether an `Except` value is a success. -/
def exceptOk {α : Type} : Except String α → Bool
  | Except.ok _ => true
  | Except.error _ => false

/-- A deterministic catalog whose discovery returns nothing (forcing the
built-in fallback list) and whose availability check always succeeds. -/
def okCat : Catalog :=
  { getClosestColor := fun _ => 4,
    discoverParts := fun _ _ => [],
    verifyAvailability := fun _ _ => Except.ok true }

/-- A catalog whose availability check always raises. -/
def errCat : Catalog :=
  { getClosestColor := fun _ => 4,
    discoverParts := fun _ _ => [],
    verifyAvailability := fun _ _ => Except.error "boom" }

/-- A catalog that reports part 3001 unavailable in color 4 and everything
else available. -/
def blockCat : Catalog :=
  { getClosestColor := fun _ => 4,
    discoverParts := fun _ _ => [],
    verifyAvailability := fun p c =>
      if p = "3001" ∧ c = 4 then Except.ok false else Except.ok true }

/-- A single voxel whose only possible anchor (1,1) violates the even-layer
parity rule at z = 0. -/
def inputOddAnchor : List InputVoxel := [{ x := 1, y := 1, z := 0, hex_color := "#FF0000" }]

/-- A single well-formed voxel at the origin. -/
def inputUnit : List InputVoxel := [{ x := 0, y := 0, z := 0, hex_color := "#FF0000" }]

/-- A raw voxel with integer coordinates and an empty color string. -/
def rawEmptyColor : List RawVoxel :=
  [{ x := PyVal.vint 0, y := PyVal.vint 0, z := PyVal.vint 0, hex_color := some "" }]

/-- A raw voxel list that coerces cleanly. -/
def rawGood : List RawVoxel :=
  [{ x := PyVal.vint 2, y := PyVal.vstr "3", z := PyVal.vint 0, hex_color := none }]

/-- Ten cells in a 5x5 bounding box of which exactly 7 (70%) lie within 0.5
units of the inscribed-circle radius (center (2,2), radius 5/2): the seven
cells at squared distance 5 are in the band (4 < 5 < 9), the three cells at
squared distance 0 or 1 are not. -/
def tenCellSeventy : List Coord2 :=
  [(0,1), (1,0), (4,3), (3,4), (0,3), (3,0), (4,1), (2,2), (2,1), (1,2)]

/-- A one-brick state with an exposed seam: the single 1x1 brick at the
origin of layer 0 meets empty space on every side, and the cell above it is
free. -/
def seamState : BuilderState :=
  { placed := [{ brick := { part_id := "3005", position := (0, 0, 0), rotation := 0,
                            color_id := 5, is_verified := true },
                 cells := [(0, 0, 0)] }],
    occupied := [(0, 0, 0)],
    layer_bricks := [(0, [{ part_id := "3005", position := (0, 0, 0), rotation := 0,
                            color_id := 5, is_verified := true }])] }

/-! ### Helper lemmas -/

/-- The integer band test of `roundNear` is exactly the source's
real-arithmetic condition `abs(sqrt((x-cx)^2+(y-cy)^2) - r) < 0.5` with
`cx = cx2/2`, `cy = cy2/2`, `r = r2/2`, for any radius of at least half a
stud (`min(w,h) ≥ 1` always holds on non-empty input). -/
theorem roundNear_iff_sqrt (cx2 cy2 r2 : Int) (c : Coord2) (hr : 1 ≤ r2) :
    roundNear cx2 cy2 r2 c = true ↔
      |Real.sqrt (((c.1 : ℝ) - (cx2 : ℝ) / 2) ^ 2 + ((c.2 : ℝ) - (cy2 : ℝ) / 2) ^ 2) -
        (r2 : ℝ) / 2| < 1 / 2 := by
  set S : ℝ := ((c.1 : ℝ) - (cx2 : ℝ) / 2) ^ 2 + ((c.2 : ℝ) - (cy2 : ℝ) / 2) ^ 2 with hSdef
  have hS : (0 : ℝ) ≤ S := by positivity
  have hrR : (1 : ℝ) ≤ (r2 : ℝ) := by exact_mod_cast hr
  have h4S : (2 * (c.1 : ℝ) - (cx2 : ℝ)) ^ 2 + (2 * (c.2 : ℝ) - (cy2 : ℝ)) ^ 2 = 4 * S := by
    rw [hSdef]
    ring
  have hup : Real.sqrt S < ((r2 : ℝ) + 1) / 2 ↔ 4 * S < ((r2 : ℝ) + 1) ^ 2 := by
    rw [Real.sqrt_lt' (by linarith)]
    constructor <;> intro h <;> nlinarith
  have hlo : ((r2 : ℝ) - 1) / 2 < Real.sqrt S ↔ ((r2 : ℝ) - 1) ^ 2 < 4 * S := by
    rw [Real.lt_sqrt (by linarith : (0 : ℝ) ≤ ((r2 : ℝ) - 1) / 2)]
    constructor <;> intro h <;> nlinarith
  simp only [roundNear, Bool.and_eq_true, decide_eq_true_eq]
  rw [abs_sub_lt_iff]
  constructor
  · rintro ⟨ha, hb⟩
    have haR : ((r2 : ℝ) - 1) ^ 2 < 4 * S := by
      have h0 : (((r2 - 1) ^ 2 : Int) : ℝ) <
          (((2 * c.1 - cx2) ^ 2 + (2 * c.2 - cy2) ^ 2 : Int) : ℝ) := by exact_mod_cast ha
      push_cast at h0
      nlinarith [h4S]
    have hbR : 4 * S < ((r2 : ℝ) + 1) ^ 2 := by
      have h0 : (((2 * c.1 - cx2) ^ 2 + (2 * c.2 - cy2) ^ 2 : Int) : ℝ) <
          (((r2 + 1) ^ 2 : Int) : ℝ) := by exact_mod_cast hb
      push_cast at h0
      nlinarith [h4S]
    constructor
    · have := hup.2 hbR
      linarith
    · have := hlo.2 haR
      linarith
  · rintro ⟨h1, h2⟩
    have hupR : 4 * S < ((r2 : ℝ) + 1) ^ 2 := hup.1 (by linarith)
    have hloR : ((r2 : ℝ) - 1) ^ 2 < 4 * S := hlo.1 (by linarith)
    constructor
    · have h0 : (((r2 - 1) ^ 2 : Int) : ℝ) <
          (((2 * c.1 - cx2) ^ 2 + (2 * c.2 - cy2) ^ 2 : Int) : ℝ) := by
        push_cast
        nlinarith [h4S]
      exact_mod_cast h0
    · have h0 : (((2 * c.1 - cx2) ^ 2 + (2 * c.2 - cy2) ^ 2 : Int) : ℝ) <
          (((r2 + 1) ^ 2 : Int) : ℝ) := by
        push_cast
        nlinarith [h4S]
      exact_mod_cast h0

/-- A 3D footprint cell is a 2D footprint cell paired with the layer. -/
theorem mem_occ3 (x y : Int) (w h : Nat) (z : Int) (c : Coord3) :
    c ∈ get_brick_occupied_positions x y w h z ↔
      (c.1, c.2.1) ∈ get_rectangular_positions x y w h ∧ c.2.2 = z := by
  rcases c with ⟨cx, cy, cz⟩
  simp only [get_brick_occupied_positions, get_rectangular_positions, List.mem_flatMap,
    List.mem_map, List.mem_range, Prod.mk.injEq]
  constructor
  · rintro ⟨dx, hdx, dy, hdy, h1, h2, h3⟩
    exact ⟨⟨dx, hdx, dy, hdy, h1, h2⟩, h3.symm⟩
  · rintro ⟨⟨dx, hdx, dy, hdy, h1, h2⟩, h3⟩
    exact ⟨dx, hdx, dy, hdy, h1, h2, h3.symm⟩

/-- Unfolding of the collision check. -/
theorem can_place_iff (st : BuilderState) (x y z : Int) (w h : Nat) :
    can_place_brick_at st x y z w h = true ↔
      ∀ c ∈ get_brick_occupied_positions x y w h z, c ∉ st.occupied := by
  simp [can_place_brick_at, List.all_eq_true]

/-- Unfolding of the placement validity test. -/
theorem placementOK_iff (st : BuilderState) (remaining : List Coord2) (x y z : Int)
    (w h : Nat) :
    placementOK st remaining x y z w h = true ↔
      ((∀ c ∈ get_brick_occupied_positions x y w h z, c ∉ st.occupied) ∧
        ∀ c ∈ get_rectangular_positions x y w h, c ∈ remaining) := by
  simp [placementOK, can_place_iff, List.all_eq_true]

/-- An anchor that passes the parity filter satisfies the parity rule. -/
theorem anchorParity_parityOK (z : Int) (a : Coord2) (h : anchorParity z a = true) :
    parityOK (a.1, a.2, z) := by
  unfold anchorParity at h
  unfold parityOK
  by_cases hz : z % 2 = 0 <;> simp [hz] at h ⊢ <;> exact h

/-- The empty state satisfies the run invariant. -/
theorem runInv_empty (dcat : DetCatalog) (G : List Coord3) : RunInv dcat G emptyState := by
  constructor <;> simp [emptyState]

/-- Committing a brick whose footprint is free preserves the run
invariant (the occupancy check of `_can_place_brick_at` is exactly the
`hfree` hypothesis). -/
theorem runInv_commit {dcat : DetCatalog} {G : List Coord3} {st : BuilderState}
    (hInv : RunInv dcat G st) (b : PlacedBrick) (cells : List Coord3)
    (lb : List (Int × List PlacedBrick))
    (hver : b.is_verified = true) (hpar : parityOK b.position)
    (hav : dcat.avail b.part_id b.color_id = true)
    (hfree : ∀ c ∈ cells, c ∉ st.occupied)
    (hgrid : ∀ c ∈ cells, c ∈ G) :
    RunInv dcat G
      { placed := st.placed ++ [{ brick := b, cells := cells }],
        occupied := st.occupied ++ cells, layer_bricks := lb } := by
  constructor
  · intro p hp c hc
    rcases List.mem_append.1 hp with hp | hp
    · exact List.mem_append_left _ (hInv.subOcc p hp c hc)
    · simp only [List.mem_singleton] at hp
      subst hp
      exact List.mem_append_right _ hc
  · refine List.pairwise_append.2 ⟨hInv.disj, List.pairwise_singleton _ _, ?_⟩
    intro p hp q hq
    simp only [List.mem_singleton] at hq
    subst hq
    intro c hc hq
    exact hfree c hq (hInv.subOcc p hp c hc)
  · intro p hp
    rcases List.mem_append.1 hp with hp | hp
    · exact hInv.verified p hp
    · simp only [List.mem_singleton] at hp
      subst hp
      exact hver
  · intro p hp
    rcases List.mem_append.1 hp with hp | hp
    · exact hInv.parity p hp
    · simp only [List.mem_singleton] at hp
      subst hp
      exact hpar
  · intro p hp c hc
    rcases List.mem_append.1 hp with hp | hp
    · exact hInv.inGrid p hp c hc
    · simp only [List.mem_singleton] at hp
      subst hp
      exact hgrid c hc
  · intro p hp
    rcases List.mem_append.1 hp with hp | hp
    · exact hInv.availTrue p hp
    · simp only [List.mem_singleton] at hp
      subst hp
      exact hav

/-- A left fold whose every step shrinks the list only keeps original
elements. -/
theorem foldl_shrink {α β : Type} (f : List α → β → List α)
    (hf : ∀ rem p c, c ∈ f rem p → c ∈ rem) :
    ∀ (ps : List β) (rem : List α) (c : α), c ∈ ps.foldl f rem → c ∈ rem := by
  intro ps
  induction ps with
  | nil => intro rem c hc; simpa using hc
  | cons p ps ih =>
    intro rem c hc
    exact hf rem p c (ih (f rem p) c hc)

/-- The anchor scan preserves the run invariant, and only ever shrinks the
remaining voxel set. -/
theorem greedyLoop_spec (dcat : DetCatalog) (G : List Coord3) (S : List Coord2)
    (pid : String) (cid : Int) (z : Int) (rot : Nat) (w h : Nat)
    (hav : dcat.avail pid cid = true)
    (hSG : ∀ a b : Int, (a, b) ∈ S → ((a, b, z) : Coord3) ∈ G) :
    ∀ (anchors remaining : List Coord2) (st : BuilderState),
      (∀ c ∈ remaining, c ∈ S) → RunInv dcat G st →
      RunInv dcat G (greedyLoop pid cid z rot w h anchors remaining st).2.2 ∧
      ∀ c ∈ (greedyLoop pid cid z rot w h anchors remaining st).2.1, c ∈ remaining := by
  intro anchors
  induction anchors with
  | nil =>
    intro remaining st hrem hInv
    simp only [greedyLoop]
    exact ⟨hInv, fun c hc => hc⟩
  | cons a anchors ih =>
    intro remaining st hrem hInv
    by_cases hp : anchorParity z a = true
    · by_cases hq : placementOK st remaining a.1 a.2 z w h = true
      · obtain ⟨hfree, hsub⟩ := (placementOK_iff st remaining a.1 a.2 z w h).1 hq
        simp only [greedyLoop]
        rw [if_pos hp, if_pos hq]
        have hgrid : ∀ c ∈ get_brick_occupied_positions a.1 a.2 w h z, c ∈ G := by
          intro c hc
          rcases c with ⟨cx, cy, cz⟩
          obtain ⟨h1, h2⟩ := (mem_occ3 a.1 a.2 w h z (cx, cy, cz)).1 hc
          simp only at h1 h2
          subst h2
          exact hSG cx cy (hrem _ (hsub _ h1))
        have hInv1 := runInv_commit hInv
          { part_id := pid, position := (a.1, a.2, z), rotation := rot,
            color_id := cid, is_verified := true }
          (get_brick_occupied_positions a.1 a.2 w h z)
          (addLayerBrick st.layer_bricks z
            { part_id := pid, position := (a.1, a.2, z), rotation := rot,
              color_id := cid, is_verified := true })
          rfl (anchorParity_parityOK z a hp) hav hfree hgrid
        have hrem1 : ∀ c ∈ remaining.filter
            (fun c => decide (c ∉ get_rectangular_positions a.1 a.2 w h)), c ∈ S :=
          fun c hc => hrem c (List.mem_filter.1 hc).1
        obtain ⟨h1, h2⟩ := ih
          (remaining.filter (fun c => decide (c ∉ get_rectangular_positions a.1 a.2 w h)))
          _ hrem1 hInv1
        exact ⟨h1, fun c hc => (List.mem_filter.1 (h2 c hc)).1⟩
      · simp only [greedyLoop]
        rw [if_pos hp, if_neg hq]
        exact ih remaining st hrem hInv
    · simp only [greedyLoop]
      rw [if_neg hp]
      exact ih remaining st hrem hInv

/-- Greedy placement for one part size preserves the run invariant. -/
theorem greedy_place_spec (dcat : DetCatalog) (G : List Coord3) (S : List Coord2)
    (voxels : List Coord2) (w h : Nat) (pid : String) (cid : Int) (z : Int) (rot : Nat)
    (st : BuilderState)
    (hSG : ∀ a b : Int, (a, b) ∈ S → ((a, b, z) : Coord3) ∈ G)
    (hvox : ∀ c ∈ voxels, c ∈ S) (hInv : RunInv dcat G st) :
    RunInv dcat G (greedy_place dcat voxels w h pid cid z rot st).2 := by
  unfold greedy_place
  by_cases hav : dcat.avail pid cid = true
  · rw [if_pos hav]
    exact (greedyLoop_spec dcat G S pid cid z rot w h hav hSG
      (sortVoxels voxels) voxels st hvox hInv).1
  · rw [if_neg hav]
    exact hInv

/-- The rotation loop preserves the run invariant and returns a remaining
set still contained in the color group. -/
theorem rotLoop_spec (dcat : DetCatalog) (G : List Coord3) (S : List Coord2)
    (cid : Int) (z : Int) (part : PartInfo)
    (hSG : ∀ a b : Int, (a, b) ∈ S → ((a, b, z) : Coord3) ∈ G) :
    ∀ (rots : List Nat) (remaining : List Coord2) (st : BuilderState),
      (∀ c ∈ remaining, c ∈ S) → RunInv dcat G st →
      RunInv dcat G (rotLoop dcat cid z part rots remaining st).2 ∧
      ∀ c ∈ (rotLoop dcat cid z part rots remaining st).1, c ∈ S := by
  intro rots
  induction rots with
  | nil =>
    intro remaining st hrem hInv
    simp only [rotLoop]
    exact ⟨hInv, hrem⟩
  | cons rot rots ih =>
    intro remaining st hrem hInv
    by_cases he : remaining.isEmpty = true
    · simp only [rotLoop]
      rw [if_pos he]
      exact ⟨hInv, hrem⟩
    · simp only [rotLoop]
      rw [if_neg he]
      have h1 := greedy_place_spec dcat G S remaining
        (get_rotated_dimensions part.width part.height rot).1
        (get_rotated_dimensions part.width part.height rot).2
        part.part_num cid z rot st hSG hrem hInv
      refine ih _ _ ?_ h1
      intro c hc
      refine hrem c ?_
      refine foldl_shrink _ ?_ _ _ _ hc
      intro rem p c2 hc2
      exact (List.mem_filter.1 hc2).1

/-- The candidate-part loop preserves the run invariant. -/
theorem partsLoop_spec (dcat : DetCatalog) (G : List Coord3) (S : List Coord2)
    (cid : Int) (z : Int)
    (hSG : ∀ a b : Int, (a, b) ∈ S → ((a, b, z) : Coord3) ∈ G) :
    ∀ (parts : List PartInfo) (remaining : List Coord2) (st : BuilderState),
      (∀ c ∈ remaining, c ∈ S) → RunInv dcat G st →
      RunInv dcat G (partsLoop dcat cid z parts remaining st).2 := by
  intro parts
  induction parts with
  | nil =>
    intro remaining st _ hInv
    simpa only [partsLoop] using hInv
  | cons part parts ih =>
    intro remaining st hrem hInv
    by_cases he : remaining.isEmpty = true
    · simp only [partsLoop]
      rw [if_pos he]
      exact hInv
    · simp only [partsLoop]
      rw [if_neg he]
      obtain ⟨h1, h2⟩ := rotLoop_spec dcat G S cid z part hSG ROTATIONS remaining st hrem hInv
      exact ih _ _ h2 h1

/-- Processing one color group preserves the run invariant, provided the
group's 2D cells all come from the grid at this layer. -/
theorem process_color_group_spec (dcat : DetCatalog) (G : List Coord3) (z : Int)
    (hex : String) (vs : List Coord2) (st : BuilderState)
    (hSG : ∀ a b : Int, (a, b) ∈ vs → ((a, b, z) : Coord3) ∈ G)
    (hInv : RunInv dcat G st) :
    RunInv dcat G (process_color_group dcat z hex vs st) := by
  unfold process_color_group
  exact partsLoop_spec dcat G vs (dcat.getClosestColor hex) z hSG _ vs st (fun c hc => hc) hInv

/-- The color-group loop preserves the run invariant. -/
theorem colorLoop_spec (dcat : DetCatalog) (G : List Coord3) (z : Int) :
    ∀ (groups : List (String × List Coord2)) (st : BuilderState),
      (∀ g ∈ groups, ∀ a b : Int, (a, b) ∈ g.2 → ((a, b, z) : Coord3) ∈ G) →
      RunInv dcat G st →
      RunInv dcat G (colorLoop dcat z groups st) := by
  intro groups
  induction groups with
  | nil =>
    intro st _ hInv
    simpa only [colorLoop] using hInv
  | cons g groups ih =>
    intro st hg hInv
    simp only [colorLoop]
    refine ih _ (fun g2 hg2 => hg g2 (List.mem_cons_of_mem _ hg2)) ?_
    exact process_color_group_spec dcat G z g.1 g.2 st (hg g (List.mem_cons_self _ _)) hInv

/-- Every member of a group produced by `addToGroup` was in an input group
or is the newly added cell. -/
theorem addToGroup_sub :
    ∀ (gs : List (String × List Coord2)) (col : String) (c : Coord2)
      (g : String × List Coord2), g ∈ addToGroup gs col c →
      ∀ v ∈ g.2, (∃ g0 ∈ gs, v ∈ g0.2) ∨ v = c := by
  intro gs
  induction gs with
  | nil =>
    intro col c g hg v hv
    simp only [addToGroup, List.mem_singleton] at hg
    subst hg
    simp only [List.mem_singleton] at hv
    exact Or.inr hv
  | cons g0 gs ih =>
    intro col c g hg v hv
    simp only [addToGroup] at hg
    by_cases hcol : g0.1 = col
    · rw [if_pos hcol] at hg
      rcases List.mem_cons.1 hg with hg | hg
      · subst hg
        rcases List.mem_append.1 hv with hv | hv
        · exact Or.inl ⟨g0, List.mem_cons_self _ _, hv⟩
        · simp only [List.mem_singleton] at hv
          exact Or.inr hv
      · exact Or.inl ⟨g, List.mem_cons_of_mem _ hg, hv⟩
    · rw [if_neg hcol] at hg
      rcases List.mem_cons.1 hg with hg | hg
      · subst hg
        exact Or.inl ⟨g, List.mem_cons_self _ _, hv⟩
      · rcases ih col c g hg v hv with ⟨g1, hg1, hv1⟩ | hv1
        · exact Or.inl ⟨g1, List.mem_cons_of_mem _ hg1, hv1⟩
        · exact Or.inr hv1

/-- Generalized fold lemma: any cell property holding of the seed groups
and of every voxel in the layer list holds of every grouped cell. -/
theorem color_groups_fold (P : Coord2 → Prop) :
    ∀ (lv : List (Coord2 × String)) (gs0 : List (String × List Coord2)),
      (∀ g ∈ gs0, ∀ v ∈ g.2, P v) → (∀ vc ∈ lv, P vc.1) →
      ∀ g ∈ lv.foldl (fun gs vc => addToGroup gs vc.2 vc.1) gs0, ∀ v ∈ g.2, P v := by
  intro lv
  induction lv with
  | nil =>
    intro gs0 h0 _ g hg
    exact h0 g hg
  | cons vc lv ih =>
    intro gs0 h0 hl g hg v hv
    refine ih (addToGroup gs0 vc.2 vc.1) ?_ (fun vc2 h => hl vc2 (List.mem_cons_of_mem _ h)) g hg v hv
    intro g2 hg2 v2 hv2
    rcases addToGroup_sub gs0 vc.2 vc.1 g2 hg2 v2 hv2 with ⟨g3, hg3, hv3⟩ | hv3
    · exact h0 g3 hg3 v2 hv3
    · subst hv3
      exact hl vc (List.mem_cons_self _ _)

/-- Every cell of a layer dictionary is a grid key at that layer. -/
theorem layer_voxels_mem (grid : List (Coord3 × String)) (z : Int)
    (vc : Coord2 × String) (h : vc ∈ layer_voxels_of grid z) :
    ((vc.1.1, vc.1.2, z) : Coord3) ∈ grid.map Prod.fst := by
  unfold layer_voxels_of at h
  rcases List.mem_filterMap.1 h with ⟨kc, hkc, he⟩
  by_cases hz : kc.1.2.2 = z
  · rw [if_pos hz] at he
    obtain rfl : ((kc.1.1, kc.1.2.1), kc.2) = vc := Option.some.inj he
    refine List.mem_map.2 ⟨kc, hkc, ?_⟩
    simp only
    rw [← hz]
  · rw [if_neg hz] at he
    exact absurd he (Option.noConfusion)

/-- Processing one layer preserves the run invariant over the grid cells. -/
theorem process_layer_spec (dcat : DetCatalog) (grid : List (Coord3 × String)) (z : Int)
    (st : BuilderState) (hInv : RunInv dcat (grid.map Prod.fst) st) :
    RunInv dcat (grid.map Prod.fst) (process_layer dcat z (layer_voxels_of grid z) st) := by
  unfold process_layer color_groups
  refine colorLoop_spec dcat _ z _ st ?_ hInv
  intro g hg a b hab
  have := color_groups_fold (fun v => ((v.1, v.2, z) : Coord3) ∈ grid.map Prod.fst)
    (layer_voxels_of grid z) [] (by simp) ?_ g hg (a, b) hab
  · exact this
  · intro vc hvc
    exact layer_voxels_mem grid z vc hvc

/-- The layer loop preserves the run invariant. -/
theorem layerLoop_spec (dcat : DetCatalog) (grid : List (Coord3 × String)) :
    ∀ (zs : List Int) (st : BuilderState),
      RunInv dcat (grid.map Prod.fst) st →
      RunInv dcat (grid.map Prod.fst) (layerLoop dcat grid zs st) := by
  intro zs
  induction zs with
  | nil =>
    intro st hInv
    simpa only [layerLoop] using hInv
  | cons z zs ih =>
    intro st hInv
    simp only [layerLoop]
    refine ih _ ?_
    by_cases he : (layer_voxels_of grid z).isEmpty = true
    · rw [if_pos he]
      exact hInv
    · rw [if_neg he]
      exact process_layer_spec dcat grid z st hInv

/-- The full run establishes the invariant over the input grid's cells. -/
theorem run_builder_inv (dcat : DetCatalog) (input : List InputVoxel) :
    RunInv dcat (gridCells input) (run_builder dcat input) := by
  unfold run_builder gridCells
  rcases hg : build_grid input with _ | ⟨kc, rest⟩
  · exact runInv_empty dcat _
  · exact layerLoop_spec dcat (kc :: rest) _ emptyState (runInv_empty dcat _)

/-- A successful owner search means some placement holds the cell. -/
theorem ownerIdxAux_some (c : Coord3) :
    ∀ (l : List Placement) (i j : Nat), ownerIdxAux c l i = some j →
      ∃ p ∈ l, c ∈ p.cells := by
  intro l
  induction l with
  | nil =>
    intro i j h
    exact absurd h (by simp [ownerIdxAux])
  | cons p ps ih =>
    intro i j h
    by_cases hc : c ∈ p.cells
    · exact ⟨p, List.mem_cons_self _ _, hc⟩
    · simp only [ownerIdxAux] at h
      rw [if_neg hc] at h
      rcases ih (i + 1) j h with ⟨q, hq, hcq⟩
      exact ⟨q, List.mem_cons_of_mem _ hq, hcq⟩

/-- Fold form of `firstOcc` keeps duplicate-freedom. -/
theorem firstOcc_aux_nodup :
    ∀ (l acc : List Coord2), acc.Nodup →
      (l.foldl (fun acc c => if c ∈ acc then acc else acc ++ [c]) acc).Nodup := by
  intro l
  induction l with
  | nil =>
    intro acc h
    simpa using h
  | cons c l ih =>
    intro acc h
    simp only [List.foldl_cons]
    by_cases hc : c ∈ acc
    · rw [if_pos hc]
      exact ih acc h
    · rw [if_neg hc]
      refine ih _ ?_
      rw [List.nodup_append]
      refine ⟨h, List.nodup_singleton _, ?_⟩
      intro a ha hac
      rw [List.mem_singleton] at hac
      subst hac
      exact hc ha

/-- The deduplicated cell list has no duplicates. -/
theorem firstOcc_nodup (l : List Coord2) : (firstOcc l).Nodup :=
  firstOcc_aux_nodup l [] List.nodup_nil

/-- Fold form of `firstOcc` preserves membership. -/
theorem firstOcc_aux_mem (c : Coord2) :
    ∀ (l acc : List Coord2),
      c ∈ l.foldl (fun acc c => if c ∈ acc then acc else acc ++ [c]) acc ↔ c ∈ acc ∨ c ∈ l := by
  intro l
  induction l with
  | nil => simp
  | cons a l ih =>
    intro acc
    simp only [List.foldl_cons]
    by_cases ha : a ∈ acc
    · rw [if_pos ha, ih]
      constructor
      · rintro (h | h)
        · exact Or.inl h
        · exact Or.inr (List.mem_cons_of_mem _ h)
      · rintro (h | h)
        · exact Or.inl h
        · rcases List.mem_cons.1 h with rfl | h
          · exact Or.inl ha
          · exact Or.inr h
    · rw [if_neg ha, ih]
      constructor
      · rintro (h | h)
        · rcases List.mem_append.1 h with h | h
          · exact Or.inl h
          · simp only [List.mem_singleton] at h
            exact Or.inr (h ▸ List.mem_cons_self _ _)
        · exact Or.inr (List.mem_cons_of_mem _ h)
      · rintro (h | h)
        · exact Or.inl (List.mem_append_left _ h)
        · rcases List.mem_cons.1 h with rfl | h
          · exact Or.inl (List.mem_append_right _ (List.mem_singleton.2 rfl))
          · exact Or.inr h

/-- Membership in `firstOcc`. -/
theorem firstOcc_mem (c : Coord2) (l : List Coord2) : c ∈ firstOcc l ↔ c ∈ l := by
  unfold firstOcc
  rw [firstOcc_aux_mem]
  simp

/-- The accumulated filler list of `interlockGo` only grows. -/
theorem interlockGo_acc_mono (dc z : Int) :
    ∀ (L : List Coord2) (acc : List FillerBlock) (st : BuilderState) (fb : FillerBlock),
      fb ∈ acc → fb ∈ (interlockGo dc z L acc st).1 := by
  intro L
  induction L with
  | nil =>
    intro acc st fb h
    simpa [interlockGo] using h
  | cons c L ih =>
    intro acc st fb h
    simp only [interlockGo]
    by_cases hc : ((c.1, c.2, z + 1) : Coord3) ∈ st.occupied
    · rw [if_pos hc]
      exact ih acc st fb h
    · rw [if_neg hc]
      exact ih _ _ fb (List.mem_append_left _ h)

/-- Every seam cell of the worklist whose cell above starts free gets a
synthetic filler committed by `interlockGo`. -/
theorem interlockGo_covers (dc z : Int) :
    ∀ (L : List Coord2) (acc : List FillerBlock) (st : BuilderState) (x y : Int),
      L.Nodup → (x, y) ∈ L → ((x, y, z + 1) : Coord3) ∉ st.occupied →
      ∃ fb ∈ (interlockGo dc z L acc st).1,
        fb.position = (x, y, z + 1) ∧ fb.color_id = dc ∧ fb.synthetic = true := by
  intro L
  induction L with
  | nil =>
    intro acc st x y _ hmem
    exact absurd hmem (List.not_mem_nil _)
  | cons c L ih =>
    intro acc st x y hnd hmem hfree
    rw [List.nodup_cons] at hnd
    simp only [interlockGo]
    rcases List.mem_cons.1 hmem with he | hm
    · have hc1 : c.1 = x := by rw [← he]
      have hc2 : c.2 = y := by rw [← he]
      rw [hc1, hc2, if_neg hfree]
      refine ⟨{ position := (x, y, z + 1), color_id := dc, synthetic := true },
        interlockGo_acc_mono dc z L _ _ _ ?_, rfl, rfl, rfl⟩
      exact List.mem_append_right _ (List.mem_singleton.2 rfl)
    · have hne : ((x, y, z + 1) : Coord3) ≠ (c.1, c.2, z + 1) := by
        intro h
        have hx : x = c.1 := congrArg Prod.fst h
        have hy : y = c.2 := congrArg Prod.fst (congrArg Prod.snd h)
        have hxy : (x, y) = c := by rw [hx, hy]
        exact hnd.1 (hxy ▸ hm)
      by_cases hc : ((c.1, c.2, z + 1) : Coord3) ∈ st.occupied
      · rw [if_pos hc]
        exact ih acc st x y hnd.2 hm hfree
      · rw [if_neg hc]
        refine ih _ _ x y hnd.2 hm ?_
        intro h
        rcases List.mem_append.1 h with h | h
        · exact hfree h
        · simp only [List.mem_singleton] at h
          exact hne h

/-- Pairwise-disjoint placements cover any cell at most once. -/
theorem countP_cells_le_one (l : List Placement) (hl : l.Pairwise DisjointCells) (c : Coord3) :
    l.countP (fun p => decide (c ∈ p.cells)) ≤ 1 := by
  induction l with
  | nil => simp
  | cons p l ih =>
    rw [List.pairwise_cons] at hl
    rw [List.countP_cons]
    by_cases hc : c ∈ p.cells
    · have h0 : l.countP (fun q => decide (c ∈ q.cells)) = 0 := by
        rw [List.countP_eq_zero]
        intro q hq
        simp only [decide_eq_true_eq]
        exact hl.1 q hq c hc
      simp [hc, h0]
    · simp only [hc, decide_False]
      simpa using ih hl.2

/-- The manifest's brick list is the projection of the run's placements. -/
theorem process_voxels_bricks (tm : Bool) (cat : Catalog) (input : List InputVoxel) :
    (process_voxels tm cat input).bricks =
      (run_builder (detOf tm cat) input).placed.map (fun p => p.brick) := rfl

/-- Loading succeeds exactly when every raw voxel coerces. -/
theorem loadVoxels_isOk :
    ∀ (l : List RawVoxel),
      exceptOk (loadVoxels l) = true ↔ ∀ v ∈ l, exceptOk (loadVoxel v) = true := by
  intro l
  induction l with
  | nil => simp [loadVoxels, exceptOk]
  | cons v vs ih =>
    simp only [loadVoxels]
    cases hv : loadVoxel v with
    | error e =>
      constructor
      · intro h
        exact absurd h (by simp [exceptOk])
      · intro h
        have h1 := h v (List.mem_cons_self _ _)
        rw [hv] at h1
        exact absurd h1 (by simp [exceptOk])
    | ok iv =>
      cases hvs : loadVoxels vs with
      | error e =>
        rw [hvs] at ih
        constructor
        · intro h
          exact absurd h (by simp [exceptOk])
        · intro h
          have h2 : ∀ w ∈ vs, exceptOk (loadVoxel w) = true :=
            fun w hw => h w (List.mem_cons_of_mem _ hw)
          exact absurd (ih.2 h2) (by simp [exceptOk])
      | ok rest =>
        rw [hvs] at ih
        constructor
        · intro _ w hw
          rcases List.mem_cons.1 hw with rfl | hw
          · rw [hv]
            rfl
          · exact ih.1 rfl w hw
        · intro _
          rfl

/-! ### Claim theorems -/

/-- Claim C1, counterexample: the claim asserts every input voxel of a
non-empty input is covered by exactly one placed brick.  On the single
voxel (1,1,0) — an odd-aligned anchor on the even layer z = 0 — the strict
parity filter rejects every candidate anchor, no brick (not even the 1x1
fallback part) is placed, and the input voxel stays uncovered. -/
theorem C1_counterexample :
    (run_builder (detOf false okCat) inputOddAnchor).placed = [] ∧
    ((1, 1, 0) : Coord3) ∈ gridCells inputOddAnchor ∧ inputOddAnchor ≠ [] := by
  decide

/-- Claim C1 (amended): in every run, each 3D cell is covered by at most
one placed brick's footprint and every covered cell is an input voxel cell;
total coverage of the input is not guaranteed (the parity filter can leave
voxels uncovered and no unit-fallback fill pass exists). -/
theorem C1_amended (tm : Bool) (cat : Catalog) (input : List InputVoxel) :
    (∀ c : Coord3,
      (run_builder (detOf tm cat) input).placed.countP (fun p => decide (c ∈ p.cells)) ≤ 1) ∧
    ∀ p ∈ (run_builder (detOf tm cat) input).placed, ∀ c ∈ p.cells, c ∈ gridCells input := by
  have h := run_builder_inv (detOf tm cat) input
  exact ⟨fun c => countP_cells_le_one _ h.disj c, h.inGrid⟩

/-- Claim C1 witness: both amended conjuncts evaluated on a concrete
one-voxel run. -/
theorem C1_amended_witness :
    (run_builder (detOf false okCat) inputUnit).placed.countP
      (fun p => decide (((0, 0, 0) : Coord3) ∈ p.cells)) ≤ 1 ∧
    ((0, 0, 0) : Coord3) ∈ gridCells inputUnit :=
  ⟨(C1_amended false okCat inputUnit).1 (0, 0, 0),
    (C1_amended false okCat inputUnit).2
      { brick := { part_id := "3005", position := (0, 0, 0), rotation := 0, color_id := 4,
                   is_verified := true },
        cells := [(0, 0, 0)] }
      (by decide) (0, 0, 0) (by decide)⟩

/-- Claim C2: for every seam cell of layer N whose cell directly above is
unoccupied, the Interlock Auditor (modelled from the spec, the method being
absent from src/) commits a synthetic unit filler at (x, y, z+1) colored
with layer N's dominant color. -/
theorem C2_seam_filler (st : BuilderState) (z x y : Int)
    (hseam : is_seam_cell st z (x, y) = true)
    (hfree : ((x, y, z + 1) : Coord3) ∉ st.occupied) :
    ∃ fb ∈ (check_laminar_interlocking st z).1,
      fb.position = (x, y, z + 1) ∧
      fb.color_id = dominant_color (layer_bricks_at st z) ∧
      fb.synthetic = true := by
  unfold check_laminar_interlocking
  refine interlockGo_covers _ z (seam_cells st z) [] st x y ?_ ?_ hfree
  · exact (firstOcc_nodup _).filter _
  · have howner : ∃ i, owner_at st (x, y, z) = some i := by
      unfold is_seam_cell at hseam
      cases ho : owner_at st (x, y, z) with
      | none =>
        rw [ho] at hseam
        exact absurd hseam (by simp)
      | some i => exact ⟨i, rfl⟩
    obtain ⟨i, hi⟩ := howner
    obtain ⟨p, hp, hc⟩ := ownerIdxAux_some (x, y, z) st.placed 0 i hi
    refine List.mem_filter.2 ⟨?_, hseam⟩
    unfold layer_cells
    rw [firstOcc_mem]
    refine List.mem_flatMap.2 ⟨p, hp, ?_⟩
    refine List.mem_filterMap.2 ⟨(x, y, z), hc, ?_⟩
    rw [if_pos rfl]

/-- Claim C2 witness: a concrete one-brick layer with an exposed seam gets
its filler. -/
theorem C2_seam_filler_witness :
    ∃ fb ∈ (check_laminar_interlocking seamState 0).1,
      fb.position = ((0 : Int), (0 : Int), (0 : Int) + 1) ∧
      fb.color_id = dominant_color (layer_bricks_at seamState 0) ∧
      fb.synthetic = true :=
  C2_seam_filler seamState 0 0 0 (by decide) (by decide)

/-- Claim C3: every brick placed by `process_voxels` has an anchor obeying
the layer parity rule — even z-layers have even x and y, odd z-layers odd x
and y. -/
theorem C3_parity (tm : Bool) (cat : Catalog) (input : List InputVoxel) :
    ∀ b ∈ (process_voxels tm cat input).bricks, parityOK b.position := by
  intro b hb
  have hb2 : b ∈ (run_builder (detOf tm cat) input).placed.map (fun p => p.brick) := hb
  rcases List.mem_map.1 hb2 with ⟨p, hp, rfl⟩
  exact (run_builder_inv (detOf tm cat) input).parity p hp

/-- Claim C3 witness: the parity rule evaluated on the brick of a concrete
run. -/
theorem C3_parity_witness :
    parityOK ({ part_id := "3005", position := (0, 0, 0), rotation := 0, color_id := 4,
                is_verified := true } : PlacedBrick).position :=
  C3_parity false okCat inputUnit
    { part_id := "3005", position := (0, 0, 0), rotation := 0, color_id := 4,
      is_verified := true } (by decide)

/-- Claim C4: the occupied-cell sets of any two distinct placed bricks are
disjoint in the final run state (each commit is checked against the
occupancy set first, which is what maintains this). -/
theorem C4_disjoint (tm : Bool) (cat : Catalog) (input : List InputVoxel) :
    (run_builder (detOf tm cat) input).placed.Pairwise DisjointCells :=
  (run_builder_inv (detOf tm cat) input).disj

/-- Claim C4 witness: pairwise disjointness evaluated on a concrete run. -/
theorem C4_disjoint_witness :
    (run_builder (detOf false okCat) inputUnit).placed.Pairwise DisjointCells :=
  C4_disjoint false okCat inputUnit

/-- Claim C6: when the catalog reports a (part, color) pair unavailable,
no brick with that part id and color id ever reaches the manifest. -/
theorem C6_unavailable (cat : Catalog) (input : List InputVoxel) (P : String) (C : Int)
    (hPC : cat.verifyAvailability P C = Except.ok false) :
    ∀ b ∈ (process_voxels false cat input).bricks, ¬(b.part_id = P ∧ b.color_id = C) := by
  intro b hb hand
  have hb2 : b ∈ (run_builder (detOf false cat) input).placed.map (fun p => p.brick) := hb
  rcases List.mem_map.1 hb2 with ⟨p, hp, rfl⟩
  have hav := (run_builder_inv (detOf false cat) input).availTrue p hp
  rw [hand.1, hand.2] at hav
  simp [detOf, availOf, hPC] at hav

/-- Claim C6 witness: with part 3001 blocked in color 4, the brick a
concrete run does place is not a 3001/4 brick. -/
theorem C6_unavailable_witness :
    blockCat.verifyAvailability "3001" 4 = Except.ok false ∧
    ¬(({ part_id := "3005", position := ((0 : Int), (0 : Int), (0 : Int)), rotation := 0,
         color_id := 4, is_verified := true } : PlacedBrick).part_id = "3001" ∧
      ({ part_id := "3005", position := ((0 : Int), (0 : Int), (0 : Int)), rotation := 0,
         color_id := 4, is_verified := true } : PlacedBrick).color_id = 4) :=
  ⟨rfl, C6_unavailable blockCat inputUnit "3001" 4 rfl
    { part_id := "3005", position := (0, 0, 0), rotation := 0, color_id := 4,
      is_verified := true } (by decide)⟩

/-- Claim C7: an availability check that raises is fail-open — the run is
identical to one where the check succeeded with True for that pair. -/
theorem C7_failopen (tm : Bool) (cat : Catalog) (P : String) (C : Int) (e : String)
    (input : List InputVoxel) (he : cat.verifyAvailability P C = Except.error e) :
    process_voxels tm cat input = process_voxels tm (overrideAvailable cat P C) input := by
  unfold process_voxels
  have hdet : detOf tm cat = detOf tm (overrideAvailable cat P C) := by
    unfold detOf overrideAvailable
    have havail : availOf tm cat = availOf tm (overrideAvailable cat P C) := by
      funext p c
      by_cases htm : tm = true
      · simp [availOf, htm]
      · by_cases hpc : p = P ∧ c = C
        · rcases hpc with ⟨rfl, rfl⟩
          simp [availOf, overrideAvailable, htm, he]
        · simp only [availOf, overrideAvailable, htm]
          rw [if_neg hpc]
    rw [havail]
    rfl
  rw [hdet]

/-- Claim C7 witness: the fail-open equality evaluated for a catalog that
always raises. -/
theorem C7_failopen_witness :
    errCat.verifyAvailability "3001" 4 = Except.error "boom" ∧
    process_voxels false errCat inputUnit =
      process_voxels false (overrideAvailable errCat "3001" 4) inputUnit :=
  ⟨rfl, C7_failopen false errCat "3001" 4 "boom" inputUnit rfl⟩

/-- Claim C8, counterexample: the claim asserts a malformed voxel (here an
empty color string) aborts the run with a structured input error and no
manifest; instead `process_voxels` performs no color validation and returns
a complete manifest for this input. -/
theorem C8_counterexample :
    process_voxels_raw false okCat rawEmptyColor =
      Except.ok
        { total_bricks := 1,
          bricks := [{ part_id := "3005", position := (0, 0, 0), rotation := 0, color_id := 4,
                       is_verified := true }],
          layers := [(0, 1)],
          inventory := [("3005", 4, 1)] } := rfl

/-- Claim C8 (amended): the only input validation is Python's `int()`
coercion of the coordinates — the run yields a manifest exactly when every
voxel's coordinates coerce (an uncaught ValueError, not a structured input
error, aborts otherwise); colors, including the empty string, are never
validated. -/
theorem C8_amended (tm : Bool) (cat : Catalog) (input : List RawVoxel) :
    exceptOk (process_voxels_raw tm cat input) = true ↔
      ∀ v ∈ input, exceptOk (loadVoxel v) = true := by
  unfold process_voxels_raw
  rw [← loadVoxels_isOk]
  cases h : loadVoxels input <;> simp [exceptOk, Except.map, h]

/-- Claim C8 witness: a cleanly coercing raw input (including a numeric
string coordinate) yields a manifest. -/
theorem C8_amended_witness :
    exceptOk (process_voxels_raw false okCat rawGood) = true :=
  (C8_amended false okCat rawGood).2 (by decide)

/-- Claim C9: two runs over the same input with the same deterministic
catalog produce identical manifests; `process_voxels` resets all builder
state on entry, so even the state left by an earlier run is irrelevant. -/
theorem C9_deterministic (prior1 prior2 : BuilderState) (tm : Bool) (cat : Catalog)
    (input : List InputVoxel) :
    process_voxels_stateful prior1 tm cat input =
      process_voxels_stateful prior2 tm cat input := rfl

/-- Claim C10: every brick in every manifest has `is_verified = true`,
including bricks placed under the fail-open rule, so the flag never
distinguishes verified from assumed-available parts. -/
theorem C10_all_verified (tm : Bool) (cat : Catalog) (input : List InputVoxel) :
    ∀ b ∈ (process_voxels tm cat input).bricks, b.is_verified = true := by
  intro b hb
  have hb2 : b ∈ (run_builder (detOf tm cat) input).placed.map (fun p => p.brick) := hb
  rcases List.mem_map.1 hb2 with ⟨p, hp, rfl⟩
  exact (run_builder_inv (detOf tm cat) input).verified p hp

/-- Claim C10 witness: a brick placed under a catalog whose availability
check always raises still carries `is_verified = true`. -/
theorem C10_all_verified_witness :
    ({ part_id := "3005", position := ((0 : Int), (0 : Int), (0 : Int)), rotation := 0,
       color_id := 4, is_verified := true } : PlacedBrick).is_verified = true :=
  C10_all_verified false errCat inputUnit
    { part_id := "3005", position := (0, 0, 0), rotation := 0, color_id := 4,
      is_verified := true } (by decide)

/-- Claim C5, counterexample: the claim's roundness threshold is "at least
70%", but on a ten-cell set with exactly seven cells (70%) in the band the
code classifies `is_round = false`, because the source comparison
`round_score / area > 0.7` is strict. -/
theorem C5_counterexample :
    (analyze_voxel_shape tenCellSeventy).is_round = false ∧
    10 * bandCount tenCellSeventy = 7 * tenCellSeventy.length ∧
    tenCellSeventy.Nodup ∧ tenCellSeventy ≠ [] := by
  decide

/-- Claim C5 (amended): for a non-empty duplicate-free cell set,
`is_rectangular` iff the cell count equals bounding-box width times height,
`is_round` iff strictly more than 70% of the cells lie within 0.5 units of
the inscribed-circle radius around the bounding-box center, and `is_curved`
iff the set is neither round nor rectangular and its aspect ratio exceeds
1.5. -/
theorem C5_amended (l : List Coord2) (hne : l ≠ []) (hnd : l.Nodup) :
    ((analyze_voxel_shape l).is_rectangular = true ↔ specRectangular l) ∧
    ((analyze_voxel_shape l).is_round = true ↔ specRound l) ∧
    ((analyze_voxel_shape l).is_curved = true ↔ specCurved l) := by
  cases l with
  | nil => exact absurd rfl hne
  | cons v vs =>
    have harea : 0 < (v :: vs).length := Nat.succ_pos _
    have h1 : (analyze_voxel_shape (v :: vs)).is_rectangular = true ↔
        specRectangular (v :: vs) := by
      simp only [analyze_voxel_shape, specRectangular, bbWidth, bbHeight, decide_eq_true_eq]
    have h2 : (analyze_voxel_shape (v :: vs)).is_round = true ↔ specRound (v :: vs) := by
      simp only [analyze_voxel_shape, specRound, bandCount, bbWidth, bbHeight]
      rw [if_pos harea]
      simp only [decide_eq_true_eq]
    have h3 : (analyze_voxel_shape (v :: vs)).is_curved = true ↔ specCurved (v :: vs) := by
      have hcurved : (analyze_voxel_shape (v :: vs)).is_curved = true ↔
          ((analyze_voxel_shape (v :: vs)).is_round = false ∧
            (analyze_voxel_shape (v :: vs)).is_rectangular = false ∧ specAspect (v :: vs)) := by
        simp only [analyze_voxel_shape, specAspect, bbWidth, bbHeight,
          Bool.and_eq_true, Bool.not_eq_true', decide_eq_true_eq, and_assoc]
      rw [hcurved]
      unfold specCurved
      rw [Bool.eq_false_iff, Bool.eq_false_iff, Ne, Ne, h1, h2]
    exact ⟨h1, h2, h3⟩

/-- Claim C5 witness: the amended classification evaluated on the singleton
cell set. -/
theorem C5_amended_witness :
    ((analyze_voxel_shape [((0 : Int), (0 : Int))]).is_rectangular = true ↔
      specRectangular [(0, 0)]) ∧
    ((analyze_voxel_shape [(0, 0)]).is_round = true ↔ specRound [(0, 0)]) ∧
    ((analyze_voxel_shape [(0, 0)]).is_curved = true ↔ specCurved [(0, 0)]) :=
  C5_amended [(0, 0)] (by decide) (by decide)
